import Mathlib

/-!
Verification of the fizz TLS 1.3 key-schedule component
(`fizz/protocol/KeyScheduler.h`).

The header declares the scheduler's data model (the stage-secret variant
`secret_`, the application-traffic pair `appTrafficSecret_` with `uint32_t`
generation counters, and the secret-tag enums) and the operation signatures
with their documented state preconditions.  The operation bodies
(`KeyScheduler.cpp`) and the `KeyDerivation` primitive interface are not part
of the sources available here, so they are modelled from the specification's
derivation graph (§4.1 of the spec), faithful to its words.

Byte strings are modelled as `List Nat`; the `uint32_t` generation counters
are modelled as `Nat` reduced modulo `2 ^ 32` at each increment.
-/

/-- Byte strings (`std::vector<uint8_t>` / `folly::ByteRange`). -/
abbrev Bytes : Type := List Nat

/-- Modelled from the spec: the external Key Derivation Primitive
(`fizz/crypto/KeyDerivation.h` is not among the sources).  It offers
`extract(salt, ikm)`, `expandLabel(secret, label, context, length)`,
transcript hashing, and a fixed hash length. -/
structure KeyDerivation where
  hashLength : Nat
  hash : Bytes → Bytes
  extract : Bytes → Bytes → Bytes
  expandLabel : Bytes → String → Bytes → Nat → Bytes

/-- An all-zero byte string of the given length. -/
def zeros (n : Nat) : Bytes := List.replicate n 0

/-- `Derive-Secret(secret, label, transcript)`: expand-with-label applied to
the hashed transcript, producing a hash-length output (spec glossary). -/
def deriveSecret (kd : KeyDerivation) (secret : Bytes) (label : String)
    (transcript : Bytes) : Bytes :=
  kd.expandLabel secret label (kd.hash transcript) kd.hashLength

/-- `enum class EarlySecrets` (KeyScheduler.h lines 17-22). -/
inductive EarlySecrets where
  | ExternalPskBinder
  | ResumptionPskBinder
  | ClientEarlyTraffic
  | EarlyExporter
deriving DecidableEq, Repr

/-- `enum class HandshakeSecrets` (KeyScheduler.h line 24). -/
inductive HandshakeSecrets where
  | ClientHandshakeTraffic
  | ServerHandshakeTraffic
deriving DecidableEq, Repr

/-- `enum class MasterSecrets` (KeyScheduler.h line 26). -/
inductive MasterSecrets where
  | ExporterMaster
  | ResumptionMaster
deriving DecidableEq, Repr

/-- `enum class AppTrafficSecrets` (KeyScheduler.h line 28). -/
inductive AppTrafficSecrets where
  | ClientAppTraffic
  | ServerAppTraffic
deriving DecidableEq, Repr

/-- `SecretType`: the boost::variant over the four tag enums
(KeyScheduler.h lines 30-31). -/
inductive SecretType where
  | early (s : EarlySecrets)
  | handshake (s : HandshakeSecrets)
  | master (s : MasterSecrets)
  | appTraffic (s : AppTrafficSecrets)
deriving DecidableEq, Repr

/-- `struct DerivedSecret`: raw secret bytes plus the tag
(KeyScheduler.h lines 33-42). -/
structure DerivedSecret where
  secret : Bytes
  type : SecretType
deriving DecidableEq, Repr

/-- Modelled from the spec: `TrafficKey` (declared in `fizz/crypto/aead/Aead.h`,
not among the sources): a transient `(key, iv)` pair. -/
structure TrafficKey where
  key : Bytes
  iv : Bytes
deriving DecidableEq, Repr

/-- The stage-secret variant `boost::variant<EarlySecret, HandshakeSecret,
MasterSecret>` stored in `secret_` (KeyScheduler.h lines 136-144, 152-153). -/
inductive StageSecret where
  | earlySecret (secret : Bytes)
  | handshakeSecret (secret : Bytes)
  | masterSecret (secret : Bytes)
deriving DecidableEq, Repr

/-- `struct AppTrafficSecret` (KeyScheduler.h lines 145-150).  The
`uint32_t` generation counters are `Nat`s kept below `2 ^ 32`. -/
structure AppTrafficSecret where
  client : Bytes
  clientGeneration : Nat
  server : Bytes
  serverGeneration : Nat
deriving DecidableEq, Repr

/-- The scheduler's state: `folly::Optional<...> secret_` and
`folly::Optional<AppTrafficSecret> appTrafficSecret_`
(KeyScheduler.h lines 152-154). -/
structure KeyScheduler where
  secret_ : Option StageSecret
  appTrafficSecret_ : Option AppTrafficSecret
deriving DecidableEq, Repr

/-- A freshly constructed scheduler: both optionals empty. -/
def KeyScheduler.init : KeyScheduler := ⟨none, none⟩

/-- The failure taxonomy relevant to the scheduler itself: a state-machine
guard violation is reported as an invalid-state failure (spec §7). -/
inductive KSError where
  | invalidState
deriving DecidableEq, Repr

/-- The fixed internal chaining label (`Derive-Secret(•, "derived", •)`). -/
def kDerivedLabel : String := "derived"

/-- Label for the client application-traffic secret (RFC 8446 table, which
the spec's label constants must match). -/
def kClientAppTrafficLabel : String := "c ap traffic"

/-- Label for the server application-traffic secret. -/
def kServerAppTrafficLabel : String := "s ap traffic"

/-- Label for a traffic-secret rekey update (spec: "traffic update"). -/
def kTrafficUpdateLabel : String := "traffic update"

/-- Label for resumption-secret expansion. -/
def kResumptionLabel : String := "resumption"

/-- The fixed label string selected by each early-family tag. -/
def earlyLabel : EarlySecrets → String
  | .ExternalPskBinder => "ext binder"
  | .ResumptionPskBinder => "res binder"
  | .ClientEarlyTraffic => "c e traffic"
  | .EarlyExporter => "e exp master"

/-- The fixed label string selected by each handshake-family tag. -/
def handshakeLabel : HandshakeSecrets → String
  | .ClientHandshakeTraffic => "c hs traffic"
  | .ServerHandshakeTraffic => "s hs traffic"

/-- The fixed label string selected by each master-family tag. -/
def masterLabel : MasterSecrets → String
  | .ExporterMaster => "exp master"
  | .ResumptionMaster => "res master"

/-- Modelled from the spec: `KeyScheduler::deriveEarlySecret` (body in
`KeyScheduler.cpp`, not among the sources).  Requires the uninitialized
(`Absent`) state; computes `EarlySecret = Extract(salt = 0, ikm = psk)`. -/
def KeyScheduler.deriveEarlySecret (kd : KeyDerivation) (ks : KeyScheduler)
    (psk : Bytes) : Except KSError KeyScheduler :=
  match ks.secret_ with
  | none =>
      .ok { ks with
              secret_ := some (.earlySecret (kd.extract (zeros kd.hashLength) psk)) }
  | some _ => .error .invalidState

/-- The chaining salt `Derive-Secret(earlySecret, "derived", empty-transcript)`
used when moving from the early to the handshake stage. -/
def chainSalt (kd : KeyDerivation) (secret : Bytes) : Bytes :=
  deriveSecret kd secret kDerivedLabel []

/-- Modelled from the spec: `KeyScheduler::deriveHandshakeSecret()` (no
exchange secret; body not among the sources).  Requires the early-secret
state; computes `HandshakeSecret = Extract(chainSalt(EarlySecret), ikm = 0)`. -/
def KeyScheduler.deriveHandshakeSecret (kd : KeyDerivation) (ks : KeyScheduler) :
    Except KSError KeyScheduler :=
  match ks.secret_ with
  | some (.earlySecret es) =>
      .ok { ks with
              secret_ := some (.handshakeSecret
                (kd.extract (chainSalt kd es) (zeros kd.hashLength))) }
  | _ => .error .invalidState

/-- Modelled from the spec: `KeyScheduler::deriveHandshakeSecret(ecdhe)` (body
not among the sources).  Requires the uninitialized or early-secret state; if
`Absent`, first synthesizes `EarlySecret = Extract(salt = 0, ikm = 0)`, then
computes `HandshakeSecret = Extract(chainSalt(EarlySecret), ikm = ecdhe)`. -/
def KeyScheduler.deriveHandshakeSecretWith (kd : KeyDerivation)
    (ks : KeyScheduler) (ecdhe : Bytes) : Except KSError KeyScheduler :=
  match ks.secret_ with
  | none =>
      .ok { ks with
              secret_ := some (.handshakeSecret
                (kd.extract
                  (chainSalt kd (kd.extract (zeros kd.hashLength) (zeros kd.hashLength)))
                  ecdhe)) }
  | some (.earlySecret es) =>
      .ok { ks with
              secret_ := some (.handshakeSecret
                (kd.extract (chainSalt kd es) ecdhe)) }
  | some _ => .error .invalidState

/-- Modelled from the spec: `KeyScheduler::deriveMasterSecret` (body not among
the sources).  Requires the handshake-secret state; computes
`MasterSecret = Extract(chainSalt(HandshakeSecret), ikm = 0)`. -/
def KeyScheduler.deriveMasterSecret (kd : KeyDerivation) (ks : KeyScheduler) :
    Except KSError KeyScheduler :=
  match ks.secret_ with
  | some (.handshakeSecret hs) =>
      .ok { ks with
              secret_ := some (.masterSecret
                (kd.extract (chainSalt kd hs) (zeros kd.hashLength))) }
  | _ => .error .invalidState

/-- Modelled from the spec: `KeyScheduler::deriveAppTrafficSecrets` (body not
among the sources).  Requires the master-secret state; derives the client and
server application-traffic secrets from the master secret and the transcript,
resets both generation counters to 0, and leaves the stage secret in place. -/
def KeyScheduler.deriveAppTrafficSecrets (kd : KeyDerivation)
    (ks : KeyScheduler) (transcript : Bytes) : Except KSError KeyScheduler :=
  match ks.secret_ with
  | some (.masterSecret ms) =>
      .ok { ks with
              appTrafficSecret_ := some
                { client := deriveSecret kd ms kClientAppTrafficLabel transcript
                  clientGeneration := 0
                  server := deriveSecret kd ms kServerAppTrafficLabel transcript
                  serverGeneration := 0 } }
  | _ => .error .invalidState

/-- Modelled from the spec: `KeyScheduler::clearMasterSecret` (body not among
the sources).  Requires the master-secret state; erases the stage secret and
does not touch the application-traffic pair. -/
def KeyScheduler.clearMasterSecret (ks : KeyScheduler) :
    Except KSError KeyScheduler :=
  match ks.secret_ with
  | some (.masterSecret _) => .ok { ks with secret_ := none }
  | _ => .error .invalidState

/-- Modelled from the spec: `KeyScheduler::clientKeyUpdate` (body not among
the sources).  Requires the traffic pair to be populated; replaces the client
secret with `Derive-Secret(current, "traffic update", empty-transcript)`,
increments the `uint32_t` client generation (modulo `2 ^ 32`), and returns
the incremented counter. -/
def KeyScheduler.clientKeyUpdate (kd : KeyDerivation) (ks : KeyScheduler) :
    Except KSError (Nat × KeyScheduler) :=
  match ks.appTrafficSecret_ with
  | some app =>
      let g := (app.clientGeneration + 1) % 2 ^ 32
      .ok (g, { ks with
                  appTrafficSecret_ := some
                    { app with
                        client := deriveSecret kd app.client kTrafficUpdateLabel []
                        clientGeneration := g } })
  | none => .error .invalidState

/-- Modelled from the spec: `KeyScheduler::serverKeyUpdate` (body not among
the sources).  Symmetric to `clientKeyUpdate`, on the server side. -/
def KeyScheduler.serverKeyUpdate (kd : KeyDerivation) (ks : KeyScheduler) :
    Except KSError (Nat × KeyScheduler) :=
  match ks.appTrafficSecret_ with
  | some app =>
      let g := (app.serverGeneration + 1) % 2 ^ 32
      .ok (g, { ks with
                  appTrafficSecret_ := some
                    { app with
                        server := deriveSecret kd app.server kTrafficUpdateLabel []
                        serverGeneration := g } })
  | none => .error .invalidState

/-- Modelled from the spec: `KeyScheduler::getSecret(EarlySecrets, transcript)`
(body not among the sources; declared `const` in the header).  Requires the
early-secret state.  The tag selects its fixed label; the binder tags use an
empty transcript by protocol definition. -/
def KeyScheduler.getSecretEarly (kd : KeyDerivation) (ks : KeyScheduler)
    (s : EarlySecrets) (transcript : Bytes) : Except KSError DerivedSecret :=
  match ks.secret_ with
  | some (.earlySecret es) =>
      let t : Bytes :=
        match s with
        | .ExternalPskBinder => []
        | .ResumptionPskBinder => []
        | .ClientEarlyTraffic => transcript
        | .EarlyExporter => transcript
      .ok ⟨deriveSecret kd es (earlyLabel s) t, .early s⟩
  | _ => .error .invalidState

/-- Modelled from the spec: `KeyScheduler::getSecret(HandshakeSecrets,
transcript)` (body not among the sources; declared `const`).  Requires the
handshake-secret state. -/
def KeyScheduler.getSecretHandshake (kd : KeyDerivation) (ks : KeyScheduler)
    (s : HandshakeSecrets) (transcript : Bytes) : Except KSError DerivedSecret :=
  match ks.secret_ with
  | some (.handshakeSecret hs) =>
      .ok ⟨deriveSecret kd hs (handshakeLabel s) transcript, .handshake s⟩
  | _ => .error .invalidState

/-- Modelled from the spec: `KeyScheduler::getSecret(MasterSecrets,
transcript)` (body not among the sources; declared `const`).  Requires the
master-secret state. -/
def KeyScheduler.getSecretMaster (kd : KeyDerivation) (ks : KeyScheduler)
    (s : MasterSecrets) (transcript : Bytes) : Except KSError DerivedSecret :=
  match ks.secret_ with
  | some (.masterSecret ms) =>
      .ok ⟨deriveSecret kd ms (masterLabel s) transcript, .master s⟩
  | _ => .error .invalidState

/-- Modelled from the spec: `KeyScheduler::getSecret(AppTrafficSecrets)`
(body not among the sources; declared `const`).  Requires the traffic pair to
be populated; returns the stored secret directly, with no further derivation. -/
def KeyScheduler.getSecretApp (ks : KeyScheduler) (s : AppTrafficSecrets) :
    Except KSError DerivedSecret :=
  match ks.appTrafficSecret_ with
  | some app =>
      .ok ⟨match s with
           | .ClientAppTraffic => app.client
           | .ServerAppTraffic => app.server,
           .appTraffic s⟩
  | none => .error .invalidState

/-- Modelled from the spec: `KeyScheduler::getTrafficKeyWithLabel` (body not
among the sources; declared `const`).  A pure function of its arguments:
`key = Expand-With-Label(secret, keyLabel, empty, keyLength)` and likewise for
the iv.  The scheduler argument is ignored, mirroring constness. -/
def KeyScheduler.getTrafficKeyWithLabel (kd : KeyDerivation)
    (_ks : KeyScheduler) (trafficSecret : Bytes) (keyLabel ivLabel : String)
    (keyLength ivLength : Nat) : TrafficKey :=
  ⟨kd.expandLabel trafficSecret keyLabel [] keyLength,
   kd.expandLabel trafficSecret ivLabel [] ivLength⟩

/-- Modelled from the spec: `KeyScheduler::getTrafficKey` (body not among the
sources; declared `const`): `getTrafficKeyWithLabel` with labels "key", "iv". -/
def KeyScheduler.getTrafficKey (kd : KeyDerivation) (ks : KeyScheduler)
    (trafficSecret : Bytes) (keyLength ivLength : Nat) : TrafficKey :=
  ks.getTrafficKeyWithLabel kd trafficSecret "key" "iv" keyLength ivLength

/-- Modelled from the spec: `KeyScheduler::getResumptionSecret` (body not
among the sources; declared `const`).  A pure function of its arguments:
`Expand-With-Label(rms, "resumption", context = ticketNonce, hashLength)`,
where the context is the raw ticket-nonce bytes, never hashed. -/
def KeyScheduler.getResumptionSecret (kd : KeyDerivation) (_ks : KeyScheduler)
    (resumptionMasterSecret ticketNonce : Bytes) : Bytes :=
  kd.expandLabel resumptionMasterSecret kResumptionLabel ticketNonce kd.hashLength

/-- The four abstract stage-machine states of the spec's state diagram. -/
inductive StageTag where
  | absent
  | early
  | handshake
  | master
deriving DecidableEq, Repr

/-- The abstract stage of a scheduler state. -/
def stageOf (ks : KeyScheduler) : StageTag :=
  match ks.secret_ with
  | none => .absent
  | some (.earlySecret _) => .early
  | some (.handshakeSecret _) => .handshake
  | some (.masterSecret _) => .master

/-- One operation of the scheduler's public mutating-or-reading interface,
with its arguments. -/
inductive Op where
  | deriveEarlySecret (psk : Bytes)
  | deriveHandshakeSecret
  | deriveHandshakeSecretWith (ecdhe : Bytes)
  | deriveMasterSecret
  | deriveAppTrafficSecrets (transcript : Bytes)
  | clearMasterSecret
  | clientKeyUpdate
  | serverKeyUpdate
  | getSecretEarly (s : EarlySecrets) (transcript : Bytes)
  | getSecretHandshake (s : HandshakeSecrets) (transcript : Bytes)
  | getSecretMaster (s : MasterSecrets) (transcript : Bytes)
  | getSecretApp (s : AppTrafficSecrets)
deriving DecidableEq, Repr

/-- The state transformer of one operation (results other than the state are
discarded; `const` getters return the state unchanged on success). -/
def step (kd : KeyDerivation) (op : Op) (ks : KeyScheduler) :
    Except KSError KeyScheduler :=
  match op with
  | .deriveEarlySecret psk => ks.deriveEarlySecret kd psk
  | .deriveHandshakeSecret => ks.deriveHandshakeSecret kd
  | .deriveHandshakeSecretWith ecdhe => ks.deriveHandshakeSecretWith kd ecdhe
  | .deriveMasterSecret => ks.deriveMasterSecret kd
  | .deriveAppTrafficSecrets t => ks.deriveAppTrafficSecrets kd t
  | .clearMasterSecret => ks.clearMasterSecret
  | .clientKeyUpdate => (ks.clientKeyUpdate kd).map (·.2)
  | .serverKeyUpdate => (ks.serverKeyUpdate kd).map (·.2)
  | .getSecretEarly s t => (ks.getSecretEarly kd s t).map fun _ => ks
  | .getSecretHandshake s t => (ks.getSecretHandshake kd s t).map fun _ => ks
  | .getSecretMaster s t => (ks.getSecretMaster kd s t).map fun _ => ks
  | .getSecretApp s => (ks.getSecretApp s).map fun _ => ks

/-- Total version of `step`: a failed call leaves the caller holding the
previous state (C++ exceptions unwind before any mutation in the model). -/
def stepT (kd : KeyDerivation) (op : Op) (ks : KeyScheduler) : KeyScheduler :=
  match step kd op ks with
  | .ok ks' => ks'
  | .error _ => ks

/-- Run a whole sequence of operations, keeping the state across failures. -/
def runT (kd : KeyDerivation) (ops : List Op) (ks : KeyScheduler) : KeyScheduler :=
  ops.foldl (fun s op => stepT kd op s) ks

/-- The client generation counter of a state (0 when the pair is absent). -/
def clientGenOf (ks : KeyScheduler) : Nat :=
  match ks.appTrafficSecret_ with
  | some app => app.clientGeneration
  | none => 0

/-- The server generation counter of a state (0 when the pair is absent). -/
def serverGenOf (ks : KeyScheduler) : Nat :=
  match ks.appTrafficSecret_ with
  | some app => app.serverGeneration
  | none => 0

/-- The stage-secret moves the spec's state diagram allows, self-loops
included: `Absent → Early → Handshake → Master`, the `Absent → Handshake`
side edge, and the explicit `Master → Absent` clear. -/
def allowedStageMove (a b : StageTag) : Prop :=
  a = b ∨
  (a = .absent ∧ b = .early) ∨
  (a = .early ∧ b = .handshake) ∨
  (a = .absent ∧ b = .handshake) ∨
  (a = .handshake ∧ b = .master) ∨
  (a = .master ∧ b = .absent)

/-- A concrete executable key-derivation primitive used to witness the
theorems on closed inputs. -/
def testKD : KeyDerivation where
  hashLength := 1
  hash := fun t => [t.length % 256]
  extract := fun salt ikm => 2 :: salt ++ ikm
  expandLabel := fun secret label ctx n => ctx ++ secret ++ [n % 256, label.length % 256]

/-- The spec's reference value for the early secret:
`EarlySecret = Extract(salt = 0, ikm = psk)`. -/
def specEarlySecret (kd : KeyDerivation) (psk : Bytes) : Bytes :=
  kd.extract (zeros kd.hashLength) psk

/-- The spec's reference value for the handshake secret:
`Extract(Derive-Secret(early, "derived", empty-transcript), ikm)`. -/
def specHandshakeSecret (kd : KeyDerivation) (early ikm : Bytes) : Bytes :=
  kd.extract (deriveSecret kd early kDerivedLabel []) ikm

/-- The spec's reference value for the master secret:
`Extract(Derive-Secret(handshake, "derived", empty-transcript), ikm = 0)`. -/
def specMasterSecret (kd : KeyDerivation) (handshake : Bytes) : Bytes :=
  kd.extract (deriveSecret kd handshake kDerivedLabel []) (zeros kd.hashLength)

/-- A concrete scheduler state with a populated traffic pair, used for closed
instances of the rekey theorems. -/
def appState0 : KeyScheduler :=
  ⟨some (.masterSecret [5]), some ⟨[6], 0, [7], 0⟩⟩

/-- The traffic-pair update performed by `clientKeyUpdate`: replace the
client secret by its "traffic update" derivation and bump the client
generation modulo `2 ^ 32`. -/
def updClient (kd : KeyDerivation) (app : AppTrafficSecret) : AppTrafficSecret :=
  { app with
      client := deriveSecret kd app.client kTrafficUpdateLabel [],
      clientGeneration := (app.clientGeneration + 1) % 2 ^ 32 }

/-- The traffic-pair update performed by `serverKeyUpdate`. -/
def updServer (kd : KeyDerivation) (app : AppTrafficSecret) : AppTrafficSecret :=
  { app with
      server := deriveSecret kd app.server kTrafficUpdateLabel [],
      serverGeneration := (app.serverGeneration + 1) % 2 ^ 32 }

/-- The state-machine guard of each operation, as documented in
KeyScheduler.h and the spec's operation table. -/
def requiredState : Op → KeyScheduler → Prop
  | .deriveEarlySecret _, ks => stageOf ks = .absent
  | .deriveHandshakeSecret, ks => stageOf ks = .early
  | .deriveHandshakeSecretWith _, ks => stageOf ks = .absent ∨ stageOf ks = .early
  | .deriveMasterSecret, ks => stageOf ks = .handshake
  | .deriveAppTrafficSecrets _, ks => stageOf ks = .master
  | .clearMasterSecret, ks => stageOf ks = .master
  | .clientKeyUpdate, ks => ks.appTrafficSecret_.isSome = true
  | .serverKeyUpdate, ks => ks.appTrafficSecret_.isSome = true
  | .getSecretEarly _ _, ks => stageOf ks = .early
  | .getSecretHandshake _ _, ks => stageOf ks = .handshake
  | .getSecretMaster _ _, ks => stageOf ks = .master
  | .getSecretApp _, ks => ks.appTrafficSecret_.isSome = true

/-- The traffic pair freshly populated by `deriveAppTrafficSecrets` from
master secret `m` and transcript `t`: both generations 0. -/
def freshAppPair (kd : KeyDerivation) (m t : Bytes) : AppTrafficSecret :=
  { client := deriveSecret kd m kClientAppTrafficLabel t
    clientGeneration := 0
    server := deriveSecret kd m kServerAppTrafficLabel t
    serverGeneration := 0 }

/-- A concrete scheduler state holding an early secret, for closed instances. -/
def earlyState0 : KeyScheduler := ⟨some (.earlySecret [4]), none⟩

/-- C1: the stage secret follows exactly the state machine
`Absent → EarlySecret → HandshakeSecret → MasterSecret`: `deriveEarlySecret`
requires `Absent` and moves to `EarlySecret`; `deriveHandshakeSecret()`
requires `EarlySecret` and moves to `HandshakeSecret`;
`deriveHandshakeSecret(ecdhe)` requires `Absent` or `EarlySecret` and moves to
`HandshakeSecret`; `deriveMasterSecret` requires `HandshakeSecret` and moves
to `MasterSecret`; `clearMasterSecret` requires `MasterSecret` and moves back
to `Absent`; and every successful operation either keeps the stage unchanged
or takes one of those edges, so no other stage transition is reachable by any
sequence of operations. -/
theorem stage_secret_state_machine (kd : KeyDerivation) (ks : KeyScheduler)
    (psk ecdhe : Bytes) :
    ((∃ ks', step kd (Op.deriveEarlySecret psk) ks = .ok ks') ↔
      stageOf ks = .absent) ∧
    (∀ ks', step kd (Op.deriveEarlySecret psk) ks = .ok ks' →
      stageOf ks' = .early) ∧
    ((∃ ks', step kd Op.deriveHandshakeSecret ks = .ok ks') ↔
      stageOf ks = .early) ∧
    (∀ ks', step kd Op.deriveHandshakeSecret ks = .ok ks' →
      stageOf ks' = .handshake) ∧
    ((∃ ks', step kd (Op.deriveHandshakeSecretWith ecdhe) ks = .ok ks') ↔
      (stageOf ks = .absent ∨ stageOf ks = .early)) ∧
    (∀ ks', step kd (Op.deriveHandshakeSecretWith ecdhe) ks = .ok ks' →
      stageOf ks' = .handshake) ∧
    ((∃ ks', step kd Op.deriveMasterSecret ks = .ok ks') ↔
      stageOf ks = .handshake) ∧
    (∀ ks', step kd Op.deriveMasterSecret ks = .ok ks' →
      stageOf ks' = .master) ∧
    ((∃ ks', step kd Op.clearMasterSecret ks = .ok ks') ↔
      stageOf ks = .master) ∧
    (∀ ks', step kd Op.clearMasterSecret ks = .ok ks' →
      stageOf ks' = .absent) ∧
    (∀ op ks', step kd op ks = .ok ks' →
      allowedStageMove (stageOf ks) (stageOf ks')) := by
  obtain ⟨sec, app⟩ := ks
  refine ⟨?_, ?_, ?_, ?_, ?_, ?_, ?_, ?_, ?_, ?_, ?_⟩
  case _ =>
    rcases sec with _ | (e | h | m) <;>
      simp [step, KeyScheduler.deriveEarlySecret, stageOf]
  case _ =>
    intro ks' h
    rcases sec with _ | (e | hs | m) <;>
      simp [step, KeyScheduler.deriveEarlySecret, stageOf] at h ⊢ <;>
      simp [← h, stageOf]
  case _ =>
    rcases sec with _ | (e | h | m) <;>
      simp [step, KeyScheduler.deriveHandshakeSecret, stageOf]
  case _ =>
    intro ks' h
    rcases sec with _ | (e | hs | m) <;>
      simp [step, KeyScheduler.deriveHandshakeSecret, stageOf] at h ⊢ <;>
      simp [← h, stageOf]
  case _ =>
    rcases sec with _ | (e | h | m) <;>
      simp [step, KeyScheduler.deriveHandshakeSecretWith, stageOf]
  case _ =>
    intro ks' h
    rcases sec with _ | (e | hs | m) <;>
      simp [step, KeyScheduler.deriveHandshakeSecretWith, stageOf] at h ⊢ <;>
      simp [← h, stageOf]
  case _ =>
    rcases sec with _ | (e | h | m) <;>
      simp [step, KeyScheduler.deriveMasterSecret, stageOf]
  case _ =>
    intro ks' h
    rcases sec with _ | (e | hs | m) <;>
      simp [step, KeyScheduler.deriveMasterSecret, stageOf] at h ⊢ <;>
      simp [← h, stageOf]
  case _ =>
    rcases sec with _ | (e | h | m) <;>
      simp [step, KeyScheduler.clearMasterSecret, stageOf]
  case _ =>
    intro ks' h
    rcases sec with _ | (e | hs | m) <;>
      simp [step, KeyScheduler.clearMasterSecret, stageOf] at h ⊢ <;>
      simp [← h, stageOf]
  case _ =>
    intro op ks' h
    cases op <;> rcases sec with _ | (e | hs | m) <;> rcases app with _ | a <;>
      simp [step, Except.map, KeyScheduler.deriveEarlySecret,
        KeyScheduler.deriveHandshakeSecret, KeyScheduler.deriveHandshakeSecretWith,
        KeyScheduler.deriveMasterSecret, KeyScheduler.deriveAppTrafficSecrets,
        KeyScheduler.clearMasterSecret, KeyScheduler.clientKeyUpdate,
        KeyScheduler.serverKeyUpdate, KeyScheduler.getSecretEarly,
        KeyScheduler.getSecretHandshake, KeyScheduler.getSecretMaster,
        KeyScheduler.getSecretApp] at h <;>
      (try subst h) <;>
      simp [stageOf, allowedStageMove]

theorem stage_secret_state_machine_witness :
    (∃ ks', step testKD (Op.deriveEarlySecret [3]) KeyScheduler.init = .ok ks') ∧
    stageOf { secret_ := some (.earlySecret (testKD.extract (zeros 1) [3])),
              appTrafficSecret_ := none } = .early := by
  refine ⟨(stage_secret_state_machine testKD KeyScheduler.init [3] []).1.mpr rfl, ?_⟩
  exact (stage_secret_state_machine testKD KeyScheduler.init [3] []).2.1 _ rfl

/-- C2: the derivation chain computes exactly the specified values:
`deriveEarlySecret psk` stores `Extract(0, psk)`; `deriveHandshakeSecret(ecdhe)`
from the early state stores `Extract(Derive-Secret(early, "derived", empty),
ecdhe)`, and from `Absent` first synthesizes `early = Extract(0, 0)`;
`deriveHandshakeSecret()` uses `ikm = 0` in that extract; `deriveMasterSecret`
stores `Extract(Derive-Secret(handshake, "derived", empty), 0)`. -/
theorem derivation_chain_values (kd : KeyDerivation) (ks : KeyScheduler)
    (psk ecdhe : Bytes) :
    (ks.secret_ = none →
      ks.deriveEarlySecret kd psk =
        .ok { ks with secret_ := some (.earlySecret (specEarlySecret kd psk)) }) ∧
    (∀ e, ks.secret_ = some (.earlySecret e) →
      ks.deriveHandshakeSecretWith kd ecdhe =
        .ok { ks with
                secret_ := some (.handshakeSecret (specHandshakeSecret kd e ecdhe)) }) ∧
    (ks.secret_ = none →
      ks.deriveHandshakeSecretWith kd ecdhe =
        .ok { ks with
                secret_ := some (.handshakeSecret
                  (specHandshakeSecret kd
                    (specEarlySecret kd (zeros kd.hashLength)) ecdhe)) }) ∧
    (∀ e, ks.secret_ = some (.earlySecret e) →
      ks.deriveHandshakeSecret kd =
        .ok { ks with
                secret_ := some (.handshakeSecret
                  (specHandshakeSecret kd e (zeros kd.hashLength))) }) ∧
    (∀ h, ks.secret_ = some (.handshakeSecret h) →
      ks.deriveMasterSecret kd =
        .ok { ks with secret_ := some (.masterSecret (specMasterSecret kd h)) }) := by
  refine ⟨?_, ?_, ?_, ?_, ?_⟩ <;>
    first
    | (intro h
       simp [KeyScheduler.deriveEarlySecret, KeyScheduler.deriveHandshakeSecretWith,
         h, specEarlySecret, specHandshakeSecret, chainSalt])
    | (intro e he
       simp [KeyScheduler.deriveHandshakeSecretWith, KeyScheduler.deriveHandshakeSecret,
         KeyScheduler.deriveMasterSecret, he, specEarlySecret, specHandshakeSecret,
         specMasterSecret, chainSalt])

theorem derivation_chain_values_witness :
    KeyScheduler.init.deriveEarlySecret testKD [7] =
      .ok { secret_ := some (.earlySecret (specEarlySecret testKD [7])),
            appTrafficSecret_ := none } ∧
    KeyScheduler.init.deriveHandshakeSecretWith testKD [9] =
      .ok { secret_ := some (.handshakeSecret
              (specHandshakeSecret testKD (specEarlySecret testKD (zeros 1)) [9])),
            appTrafficSecret_ := none } :=
  ⟨(derivation_chain_values testKD KeyScheduler.init [7] [9]).1 rfl,
   (derivation_chain_values testKD KeyScheduler.init [7] [9]).2.2.1 rfl⟩


theorem runT_cons (kd : KeyDerivation) (op : Op) (ops : List Op)
    (ks : KeyScheduler) :
    runT kd (op :: ops) ks = runT kd ops (stepT kd op ks) := rfl

theorem clientGen_replicate_update (kd : KeyDerivation) (n : Nat) :
    ∀ (ks : KeyScheduler) (app : AppTrafficSecret),
      ks.appTrafficSecret_ = some app → clientGenOf ks < 2 ^ 32 →
      clientGenOf (runT kd (List.replicate n Op.clientKeyUpdate) ks) =
        (clientGenOf ks + n) % 2 ^ 32 := by
  induction n with
  | zero =>
      intro ks app h hlt
      simpa [runT] using (Nat.mod_eq_of_lt hlt).symm
  | succ n ih =>
      intro ks app h hlt
      rw [List.replicate_succ, runT_cons]
      have hstep : stepT kd Op.clientKeyUpdate ks =
          { ks with appTrafficSecret_ := some (updClient kd app) } := by
        simp [stepT, step, KeyScheduler.clientKeyUpdate, h, Except.map, updClient]
      rw [hstep]
      rw [ih _ (updClient kd app) rfl
            (by simp [clientGenOf, updClient]; exact Nat.mod_lt _ (by norm_num))]
      simp only [clientGenOf, updClient, h]
      omega

/-- C3 counterexample: generation counters do decrease under some operation
sequences.  Re-deriving the application traffic secrets resets the client
generation from 1 back to 0, and (independently) the `uint32_t` counter wraps
from `2 ^ 32 - 1` to 0 after `2 ^ 32` successful client key updates. -/
theorem key_update_generation_counterexample :
    clientGenOf (runT testKD [Op.deriveEarlySecret [1],
      Op.deriveHandshakeSecretWith [2], Op.deriveMasterSecret,
      Op.deriveAppTrafficSecrets [3], Op.clientKeyUpdate] KeyScheduler.init) = 1 ∧
    clientGenOf (runT testKD [Op.deriveEarlySecret [1],
      Op.deriveHandshakeSecretWith [2], Op.deriveMasterSecret,
      Op.deriveAppTrafficSecrets [3], Op.clientKeyUpdate,
      Op.deriveAppTrafficSecrets [3]] KeyScheduler.init) = 0 ∧
    clientGenOf (runT testKD (List.replicate (2 ^ 32 - 1) Op.clientKeyUpdate)
      appState0) = 2 ^ 32 - 1 ∧
    clientGenOf (runT testKD (List.replicate (2 ^ 32) Op.clientKeyUpdate)
      appState0) = 0 := by
  refine ⟨by decide, by decide, ?_, ?_⟩
  · rw [clientGen_replicate_update testKD (2 ^ 32 - 1) appState0 ⟨[6], 0, [7], 0⟩
      rfl (by norm_num [clientGenOf, appState0])]
    norm_num [clientGenOf, appState0]
  · rw [clientGen_replicate_update testKD (2 ^ 32) appState0 ⟨[6], 0, [7], 0⟩
      rfl (by norm_num [clientGenOf, appState0])]
    norm_num [clientGenOf, appState0]

/-- C3 (amended): for a populated traffic pair, `clientKeyUpdate`
(resp. `serverKeyUpdate`) replaces the stored client (resp. server) secret
with `Derive-Secret(current, "traffic update", empty-transcript)`, sets the
corresponding `uint32_t` generation to its successor modulo `2 ^ 32`, returns
that value, and leaves the other side's secret and counter untouched; a
subsequent `getSecret(ClientAppTraffic)` (resp. `ServerAppTraffic`) returns
the new secret; and no operation other than `deriveAppTrafficSecrets` (which
resets the counters to 0) ever decreases a generation counter while the
counter is below the `uint32_t` wraparound bound. -/
theorem key_update_amended (kd : KeyDerivation) (ks : KeyScheduler)
    (app : AppTrafficSecret) (h : ks.appTrafficSecret_ = some app) :
    (ks.clientKeyUpdate kd = .ok ((app.clientGeneration + 1) % 2 ^ 32,
      { ks with appTrafficSecret_ := some (updClient kd app) })) ∧
    (ks.serverKeyUpdate kd = .ok ((app.serverGeneration + 1) % 2 ^ 32,
      { ks with appTrafficSecret_ := some (updServer kd app) })) ∧
    ((updClient kd app).server = app.server ∧
      (updClient kd app).serverGeneration = app.serverGeneration) ∧
    ((updServer kd app).client = app.client ∧
      (updServer kd app).clientGeneration = app.clientGeneration) ∧
    ((stepT kd Op.clientKeyUpdate ks).getSecretApp .ClientAppTraffic =
      .ok ⟨deriveSecret kd app.client kTrafficUpdateLabel [],
           .appTraffic .ClientAppTraffic⟩) ∧
    ((stepT kd Op.serverKeyUpdate ks).getSecretApp .ServerAppTraffic =
      .ok ⟨deriveSecret kd app.server kTrafficUpdateLabel [],
           .appTraffic .ServerAppTraffic⟩) ∧
    (∀ op ks', (∀ t, op ≠ Op.deriveAppTrafficSecrets t) →
      step kd op ks = .ok ks' → clientGenOf ks + 1 < 2 ^ 32 →
      clientGenOf ks ≤ clientGenOf ks') ∧
    (∀ op ks', (∀ t, op ≠ Op.deriveAppTrafficSecrets t) →
      step kd op ks = .ok ks' → serverGenOf ks + 1 < 2 ^ 32 →
      serverGenOf ks ≤ serverGenOf ks') := by
  refine ⟨by simp [KeyScheduler.clientKeyUpdate, h, updClient],
          by simp [KeyScheduler.serverKeyUpdate, h, updServer],
          by simp [updClient], by simp [updServer],
          by simp [stepT, step, KeyScheduler.clientKeyUpdate, h, Except.map,
                   KeyScheduler.getSecretApp, updClient],
          by simp [stepT, step, KeyScheduler.serverKeyUpdate, h, Except.map,
                   KeyScheduler.getSecretApp, updServer],
          ?_, ?_⟩ <;>
  · intro op ks' hne hstep hlt
    obtain ⟨sec, app2⟩ := ks
    obtain rfl : app2 = some app := h
    simp only [clientGenOf, serverGenOf] at hlt
    cases op <;>
      [skip; skip; skip; skip; exact absurd rfl (hne _); skip; skip; skip;
       skip; skip; skip; skip] <;>
      rcases sec with _ | (e | hsv | m) <;>
      simp [step, Except.map, KeyScheduler.deriveEarlySecret,
        KeyScheduler.deriveHandshakeSecret, KeyScheduler.deriveHandshakeSecretWith,
        KeyScheduler.deriveMasterSecret, KeyScheduler.clearMasterSecret,
        KeyScheduler.clientKeyUpdate, KeyScheduler.serverKeyUpdate,
        KeyScheduler.getSecretEarly, KeyScheduler.getSecretHandshake,
        KeyScheduler.getSecretMaster, KeyScheduler.getSecretApp] at hstep <;>
      (try subst hstep) <;>
      simp [clientGenOf, serverGenOf] <;>
      omega

theorem key_update_amended_witness :
    appState0.clientKeyUpdate testKD =
      .ok (1, { secret_ := some (.masterSecret [5]),
                appTrafficSecret_ := some
                  { client := deriveSecret testKD [6] kTrafficUpdateLabel [],
                    clientGeneration := 1, server := [7],
                    serverGeneration := 0 } }) := by
  have h := (key_update_amended testKD appState0 ⟨[6], 0, [7], 0⟩ rfl).1
  simpa [updClient] using h

/-- C4: every operation invoked outside its required state fails with the
invalid-state error (it never silently succeeds), an operation succeeds
exactly when its guard holds, a failed operation leaves the whole scheduler
state (stage secret, traffic pair and generation counters) exactly as it was,
and in particular `deriveHandshakeSecret()` called in the `Absent` state fails
and leaves the scheduler still in `Absent`. -/
theorem invalid_state_errors (kd : KeyDerivation) (op : Op) (ks : KeyScheduler) :
    (¬ requiredState op ks → step kd op ks = .error .invalidState) ∧
    (requiredState op ks → ∃ ks', step kd op ks = .ok ks') ∧
    (¬ requiredState op ks → stepT kd op ks = ks) ∧
    (ks.secret_ = none →
      ks.deriveHandshakeSecret kd = .error .invalidState ∧
      stepT kd Op.deriveHandshakeSecret ks = ks ∧
      stageOf (stepT kd Op.deriveHandshakeSecret ks) = .absent) := by
  obtain ⟨sec, app⟩ := ks
  refine ⟨?_, ?_, ?_, ?_⟩
  case _ =>
    intro hnot
    cases op <;> rcases sec with _ | (e | hsv | m) <;> rcases app with _ | a <;>
      simp_all [requiredState, stageOf, step, Except.map,
        KeyScheduler.deriveEarlySecret, KeyScheduler.deriveHandshakeSecret,
        KeyScheduler.deriveHandshakeSecretWith, KeyScheduler.deriveMasterSecret,
        KeyScheduler.deriveAppTrafficSecrets, KeyScheduler.clearMasterSecret,
        KeyScheduler.clientKeyUpdate, KeyScheduler.serverKeyUpdate,
        KeyScheduler.getSecretEarly, KeyScheduler.getSecretHandshake,
        KeyScheduler.getSecretMaster, KeyScheduler.getSecretApp]
  case _ =>
    intro hreq
    cases op <;> rcases sec with _ | (e | hsv | m) <;> rcases app with _ | a <;>
      simp_all [requiredState, stageOf, step, Except.map,
        KeyScheduler.deriveEarlySecret, KeyScheduler.deriveHandshakeSecret,
        KeyScheduler.deriveHandshakeSecretWith, KeyScheduler.deriveMasterSecret,
        KeyScheduler.deriveAppTrafficSecrets, KeyScheduler.clearMasterSecret,
        KeyScheduler.clientKeyUpdate, KeyScheduler.serverKeyUpdate,
        KeyScheduler.getSecretEarly, KeyScheduler.getSecretHandshake,
        KeyScheduler.getSecretMaster, KeyScheduler.getSecretApp]
  case _ =>
    intro hnot
    cases op <;> rcases sec with _ | (e | hsv | m) <;> rcases app with _ | a <;>
      simp_all [requiredState, stageOf, stepT, step, Except.map,
        KeyScheduler.deriveEarlySecret, KeyScheduler.deriveHandshakeSecret,
        KeyScheduler.deriveHandshakeSecretWith, KeyScheduler.deriveMasterSecret,
        KeyScheduler.deriveAppTrafficSecrets, KeyScheduler.clearMasterSecret,
        KeyScheduler.clientKeyUpdate, KeyScheduler.serverKeyUpdate,
        KeyScheduler.getSecretEarly, KeyScheduler.getSecretHandshake,
        KeyScheduler.getSecretMaster, KeyScheduler.getSecretApp]
  case _ =>
    intro hnone
    obtain rfl : sec = none := hnone
    simp [KeyScheduler.deriveHandshakeSecret, stepT, step, stageOf]

theorem invalid_state_errors_witness :
    KeyScheduler.init.deriveHandshakeSecret testKD = .error .invalidState ∧
    stepT testKD Op.deriveHandshakeSecret KeyScheduler.init = KeyScheduler.init ∧
    stageOf (stepT testKD Op.deriveHandshakeSecret KeyScheduler.init) = .absent :=
  (invalid_state_errors testKD Op.deriveHandshakeSecret KeyScheduler.init).2.2.2 rfl

/-- C5: the stage secret and the traffic pair have decoupled lifecycles:
`clearMasterSecret` only empties `secret_`, leaving the traffic pair and its
generation counters untouched; afterwards `getSecret(ClientAppTraffic)` and
`getSecret(ServerAppTraffic)` still succeed with the previously derived
values, while `deriveAppTrafficSecrets` fails with the invalid-state error. -/
theorem clear_master_decoupled (kd : KeyDerivation) (ks : KeyScheduler)
    (m : Bytes) (app : AppTrafficSecret)
    (hm : ks.secret_ = some (.masterSecret m))
    (ha : ks.appTrafficSecret_ = some app) :
    ks.clearMasterSecret = .ok { ks with secret_ := none } ∧
    (stepT kd Op.clearMasterSecret ks).appTrafficSecret_ = ks.appTrafficSecret_ ∧
    clientGenOf (stepT kd Op.clearMasterSecret ks) = clientGenOf ks ∧
    serverGenOf (stepT kd Op.clearMasterSecret ks) = serverGenOf ks ∧
    ((stepT kd Op.clearMasterSecret ks).getSecretApp .ClientAppTraffic =
      .ok ⟨app.client, .appTraffic .ClientAppTraffic⟩) ∧
    ((stepT kd Op.clearMasterSecret ks).getSecretApp .ServerAppTraffic =
      .ok ⟨app.server, .appTraffic .ServerAppTraffic⟩) ∧
    (∀ t, (stepT kd Op.clearMasterSecret ks).deriveAppTrafficSecrets kd t =
      .error .invalidState) := by
  refine ⟨by simp [KeyScheduler.clearMasterSecret, hm], ?_, ?_, ?_, ?_, ?_, ?_⟩ <;>
    simp [stepT, step, KeyScheduler.clearMasterSecret, hm, ha, clientGenOf,
      serverGenOf, KeyScheduler.getSecretApp, KeyScheduler.deriveAppTrafficSecrets]

theorem clear_master_decoupled_witness :
    appState0.clearMasterSecret =
      .ok { secret_ := none, appTrafficSecret_ := some ⟨[6], 0, [7], 0⟩ } ∧
    (stepT testKD Op.clearMasterSecret appState0).getSecretApp .ClientAppTraffic =
      .ok ⟨[6], .appTraffic .ClientAppTraffic⟩ ∧
    (stepT testKD Op.clearMasterSecret appState0).deriveAppTrafficSecrets testKD [8] =
      .error .invalidState := by
  have h := clear_master_decoupled testKD appState0 [5] ⟨[6], 0, [7], 0⟩ rfl rfl
  exact ⟨h.1, h.2.2.2.2.1, h.2.2.2.2.2.2 [8]⟩

/-- C6: `deriveAppTrafficSecrets(transcript)` in the `MasterSecret` state
derives `client = Derive-Secret(ms, client-app-traffic-label, transcript)` and
`server = Derive-Secret(ms, server-app-traffic-label, transcript)`, resets
both generation counters to 0, and leaves the stage secret unchanged: the
scheduler remains in `MasterSecret` with the same master-secret bytes. -/
theorem derive_app_traffic_secrets_spec (kd : KeyDerivation) (ks : KeyScheduler)
    (m t : Bytes) (hm : ks.secret_ = some (.masterSecret m)) :
    ks.deriveAppTrafficSecrets kd t =
      .ok { ks with appTrafficSecret_ := some (freshAppPair kd m t) } ∧
    (freshAppPair kd m t).client = deriveSecret kd m kClientAppTrafficLabel t ∧
    (freshAppPair kd m t).server = deriveSecret kd m kServerAppTrafficLabel t ∧
    (freshAppPair kd m t).clientGeneration = 0 ∧
    (freshAppPair kd m t).serverGeneration = 0 ∧
    (stepT kd (Op.deriveAppTrafficSecrets t) ks).secret_ = some (.masterSecret m) ∧
    stageOf (stepT kd (Op.deriveAppTrafficSecrets t) ks) = .master := by
  refine ⟨?_, rfl, rfl, rfl, rfl, ?_, ?_⟩ <;>
    simp [KeyScheduler.deriveAppTrafficSecrets, hm, freshAppPair, stepT, step,
      stageOf]

theorem derive_app_traffic_secrets_spec_witness :
    appState0.deriveAppTrafficSecrets testKD [9] =
      .ok { secret_ := some (.masterSecret [5]),
            appTrafficSecret_ := some (freshAppPair testKD [5] [9]) } ∧
    stageOf (stepT testKD (Op.deriveAppTrafficSecrets [9]) appState0) = .master := by
  have h := derive_app_traffic_secrets_spec testKD appState0 [5] [9] rfl
  exact ⟨h.1, h.2.2.2.2.2.2⟩

/-- C8: the four early-family tags select four distinct fixed label strings
(the label map is injective), and for the binder tags the derivation uses an
empty transcript by protocol definition: in the early-secret state,
`getSecret(ExternalPskBinder, t)` and `getSecret(ResumptionPskBinder, t)`
equal the empty-transcript derivation for every transcript `t`, hence are
independent of `t`. -/
theorem early_family_labels (kd : KeyDerivation) (ks : KeyScheduler)
    (e t : Bytes) (he : ks.secret_ = some (.earlySecret e)) :
    (∀ a b : EarlySecrets, earlyLabel a = earlyLabel b → a = b) ∧
    (ks.getSecretEarly kd .ExternalPskBinder t =
      .ok ⟨deriveSecret kd e (earlyLabel .ExternalPskBinder) [],
           .early .ExternalPskBinder⟩) ∧
    (ks.getSecretEarly kd .ResumptionPskBinder t =
      .ok ⟨deriveSecret kd e (earlyLabel .ResumptionPskBinder) [],
           .early .ResumptionPskBinder⟩) := by
  refine ⟨?_, ?_, ?_⟩
  case _ =>
    intro a b hab
    cases a <;> cases b <;> first | rfl | exact absurd hab (by decide)
  case _ => simp [KeyScheduler.getSecretEarly, he]
  case _ => simp [KeyScheduler.getSecretEarly, he]

theorem early_family_labels_witness :
    earlyLabel .ExternalPskBinder ≠ earlyLabel .ClientEarlyTraffic ∧
    earlyState0.getSecretEarly testKD .ExternalPskBinder [9] =
      .ok ⟨deriveSecret testKD [4] (earlyLabel .ExternalPskBinder) [],
           .early .ExternalPskBinder⟩ := by
  refine ⟨?_, (early_family_labels testKD earlyState0 [4] [9] rfl).2.1⟩
  intro hab
  exact absurd ((early_family_labels testKD earlyState0 [4] [9] rfl).1 _ _ hab)
    (by decide)

/-- C9: `getResumptionSecret(rms, nonce)` is a pure function of its two
arguments, independent of the scheduler state, computing
`Expand-With-Label(rms, "resumption", context = nonce, hashLength)` with the
raw (unhashed) nonce as context; repeated calls agree, and whenever the
primitive's expansion is injective in its context argument, distinct nonces
give distinct outputs. -/
theorem resumption_secret_pure (kd : KeyDerivation) (ks ks' : KeyScheduler)
    (rms nonce a b : Bytes) :
    (ks.getResumptionSecret kd rms nonce =
      kd.expandLabel rms kResumptionLabel nonce kd.hashLength) ∧
    (ks.getResumptionSecret kd rms nonce = ks'.getResumptionSecret kd rms nonce) ∧
    (Function.Injective
        (fun c => kd.expandLabel rms kResumptionLabel c kd.hashLength) →
      a ≠ b →
      ks.getResumptionSecret kd rms a ≠ ks.getResumptionSecret kd rms b) :=
  ⟨rfl, rfl, fun hinj hab hc => hab (hinj hc)⟩

theorem resumption_secret_pure_witness :
    KeyScheduler.init.getResumptionSecret testKD [1] [0] ≠
      KeyScheduler.init.getResumptionSecret testKD [1] [5] := by
  refine (resumption_secret_pure testKD KeyScheduler.init KeyScheduler.init
    [1] [0] [0] [5]).2.2 ?_ (by decide)
  intro c₁ c₂ hc
  have h₁ : c₁ ++ [1] ++ [1 % 256, kResumptionLabel.length % 256] =
      c₂ ++ [1] ++ [1 % 256, kResumptionLabel.length % 256] := hc
  exact List.append_cancel_right (List.append_cancel_right h₁)

/-- C10: every retrieval operation is read-only.  The four `getSecret`
overloads leave the scheduler state (stage secret, traffic pair, generation
counters) unchanged in every state, and `getTrafficKey`,
`getTrafficKeyWithLabel` and `getResumptionSecret` are pure functions of
their arguments, returning the same value on any two scheduler states
(they are declared `const` and mutate nothing). -/
theorem getters_read_only (kd : KeyDerivation) (ks ks₂ : KeyScheduler)
    (e : EarlySecrets) (hsec : HandshakeSecrets) (msec : MasterSecrets)
    (a : AppTrafficSecrets) (t sec rms nonce : Bytes) (kl il : String)
    (keyLength ivLength : Nat) :
    stepT kd (Op.getSecretEarly e t) ks = ks ∧
    stepT kd (Op.getSecretHandshake hsec t) ks = ks ∧
    stepT kd (Op.getSecretMaster msec t) ks = ks ∧
    stepT kd (Op.getSecretApp a) ks = ks ∧
    ks.getTrafficKey kd sec keyLength ivLength =
      ks₂.getTrafficKey kd sec keyLength ivLength ∧
    ks.getTrafficKeyWithLabel kd sec kl il keyLength ivLength =
      ks₂.getTrafficKeyWithLabel kd sec kl il keyLength ivLength ∧
    ks.getResumptionSecret kd rms nonce = ks₂.getResumptionSecret kd rms nonce := by
  obtain ⟨s, app⟩ := ks
  refine ⟨?_, ?_, ?_, ?_, rfl, rfl, rfl⟩ <;>
    rcases s with _ | (ev | hv | mv) <;> rcases app with _ | ap <;>
      simp [stepT, step, Except.map, KeyScheduler.getSecretEarly,
        KeyScheduler.getSecretHandshake, KeyScheduler.getSecretMaster,
        KeyScheduler.getSecretApp]
